import Mathlib

/-!
Verification of the process-supervision / protocol-bridge layer of the
agentcore-telco repository.

The embedding below is a shallow model of two source files:

* `eks-agentcore/agent.py` — the `AWSMCPManager` class (fleet
  initialization of MCP stdio servers with per-server join timeouts,
  tool aggregation and tagging, cleanup), the module-level
  `cleanup_all_resources` shutdown coordinator, and the paginated
  `get_full_tools_list` helper;
* `awslabs-mcp-lambda/lambda/mcp_wrapper.py` — the `McpServerWrapper`
  class (lazy process spawn, line-based JSON-RPC exchange, error
  normalization in `handle_request`).

Conventions: time is modelled in integer milliseconds; only the blocking
`Thread.join(timeout=...)` waits consume model time (thread start, prints
and dictionary updates are free).  A worker that can block forever is
modelled by an oracle value; child-process behaviour (liveness, what a
read from its stdout yields) is an oracle passed to each operation.
Python exceptions are modelled with `Except`; a Python `None`-able value
with `Option`.
-/

namespace AgentCoreTelco

/-! ## Tool descriptors and tagging

Source: `agent.py`, `AWSMCPManager._get_tools_from_client` (lines
194-234).  A tool object coming back from a client either has a `name`
attribute or not; tagging (lines 216-222) sets `_original_name` and
`_server_name` only on tools that have a `name` attribute. -/

/-- A tool object as returned by an MCP client, before tagging: it may or
may not carry a `name` attribute (`none` models a tool object without
one). -/
structure RawTool where
  name : Option String
  desc : String
deriving DecidableEq, Repr

/-- A tool object after `_get_tools_from_client` has walked it: `_original_name`
and `_server_name` are set only when the raw tool had a `name` attribute
(`hasattr(tool, 'name')`, agent.py line 219). -/
structure TaggedTool where
  name : Option String
  desc : String
  originalName : Option String
  serverName : Option String
deriving DecidableEq, Repr

/-- Tagging of one tool, from agent.py lines 218-221: tools with a `name`
attribute get `_original_name := name` and `_server_name := server_name`;
tools without one are passed through untouched (hence untagged). -/
def tagTool (serverName : String) (t : RawTool) : TaggedTool :=
  match t.name with
  | some n => { name := some n, desc := t.desc, originalName := some n, serverName := some serverName }
  | none => { name := none, desc := t.desc, originalName := none, serverName := none }

/-- The duck-typed shapes `client.list_tools_sync()` has been observed to
return, as classified by `_get_tools_from_client` (agent.py lines 199-214),
plus the exception path (lines 225-234). -/
inductive ListToolsResult where
  | dict (toolsField : Option (List RawTool))
  | list (ts : List RawTool)
  | isNone
  | unexpected
  | raises (msg : String)
deriving DecidableEq, Repr

/-- Shallow embedding of `AWSMCPManager._get_tools_from_client`
(agent.py lines 194-234).  A `dict` with a truthy `'tools'` entry or a
bare `list` yields the (tagged) tool list; an empty or missing `'tools'`
field, a `None` result, an unexpected type, or any exception raised by
`list_tools_sync` yields `[]`. -/
def get_tools_from_client (serverName : String) : ListToolsResult → List TaggedTool
  | .dict (some ts) =>
      if ts.isEmpty then [] else ts.map (tagTool serverName)
  | .dict none => []
  | .list ts =>
      if ts.isEmpty then [] else ts.map (tagTool serverName)
  | .isNone => []
  | .unexpected => []
  | .raises _ => []

/-! ## Server specifications and per-server init timeouts

Source: `agent.py`, `AWSMCPManager.initialize_aws_mcp_clients`
(lines 87-114) and `_initialize_single_mcp_client` (lines 116-192). -/

/-- One entry of the `mcpServers` configuration object
(agent.py lines 118-120 read `command`, `args`, `env`; line 95 reads
`disabled`). -/
structure ServerConfig where
  command : String
  args : List String
  env : List (String × String)
  disabled : Bool
deriving DecidableEq, Repr

/-- The allow-list of servers known to hang, agent.py lines 100-104 and
177-181 (the same set literal appears in both methods). -/
def problematicServers : List String :=
  ["awslabs.prometheus-mcp-server", "aws-knowledge-mcp-server", "awslabs.cloudwatch-mcp-server"]

/-- Per-server join budget in milliseconds, agent.py line 183:
`timeout = 2.0 if server_name in problematic_servers else 5.0`. -/
def initTimeoutMs (serverName : String) : Nat :=
  if serverName ∈ problematicServers then 2000 else 5000

/-- Behaviour of one `init_client_worker` thread (agent.py lines 129-174),
decided by the environment: the worker either reaches lines 166-167 after
`durationMs` of wall-clock work (having obtained `resp` from
`list_tools_sync`), raises after `durationMs`, or blocks forever (e.g. in
`client.start()`, the call line 161 flags as able to hang). -/
inductive WorkerOutcome where
  | succeeds (durationMs : Nat) (resp : ListToolsResult)
  | fails (durationMs : Nat)
  | hangs
deriving DecidableEq, Repr

/-- Wall-clock milliseconds `init_thread.join(timeout=timeout)` blocks the
caller (agent.py line 188): until the worker finishes or the budget runs
out, whichever is first. -/
def joinTimeMs (timeoutMs : Nat) : WorkerOutcome → Nat
  | .succeeds d _ => min d timeoutMs
  | .fails d => min d timeoutMs
  | .hangs => timeoutMs

/-- Whether the worker finished (successfully or not) inside the join
budget of its server; agent.py line 190 (`init_thread.is_alive()`) is the
negation of this. -/
def completedWithinBudget (serverName : String) : WorkerOutcome → Bool
  | .succeeds d _ => d ≤ initTimeoutMs serverName
  | .fails d => d ≤ initTimeoutMs serverName
  | .hangs => false

/-- Whether the worker eventually runs its lines 166-167
(`self.mcp_clients[server_name] = client; self.mcp_tools.extend(tools)`),
no matter how long that takes. -/
def workerSucceeded : WorkerOutcome → Bool
  | .succeeds _ _ => true
  | .fails _ => false
  | .hangs => false

/-! ## Manager state and fleet initialization

`AWSMCPManager.__init__` (agent.py lines 58-62) starts with empty
`mcp_clients` and `mcp_tools` and `_cleanup_registered = False`.  The
field `workersStarted` is a ghost log of every server for which
`_initialize_single_mcp_client` started an `init_client_worker` thread
(agent.py line 187) — only such a worker ever constructs an `MCPClient`
and spawns a child process. -/

structure ManagerState where
  mcp_clients : List String
  mcp_tools : List TaggedTool
  cleanup_registered : Bool
  workersStarted : List String
deriving DecidableEq, Repr

/-- The state `AWSMCPManager.__init__` builds (agent.py lines 58-62). -/
def initialManagerState : ManagerState :=
  { mcp_clients := [], mcp_tools := [], cleanup_registered := false, workersStarted := [] }

/-- Eventual effect of `_initialize_single_mcp_client` on the shared
manager state (agent.py lines 116-192).  An empty `command` returns before
any thread is started (lines 122-124).  Otherwise a worker thread is
started; the worker itself — not the joining caller — performs
`self.mcp_clients[server_name] = client` and `self.mcp_tools.extend(tools)`
(lines 166-167) when it reaches them, and nothing after the
`join(timeout=...)` undoes that write, so the effect lands whether or not
the worker beat its budget. -/
def initialize_single_mcp_client (serverName : String) (cfg : ServerConfig)
    (out : WorkerOutcome) (st : ManagerState) : ManagerState :=
  if cfg.command.isEmpty then st
  else
    let started := { st with workersStarted := st.workersStarted ++ [serverName] }
    match out with
    | .succeeds _ resp =>
        { started with
          mcp_clients := started.mcp_clients ++ [serverName],
          mcp_tools := started.mcp_tools ++ get_tools_from_client serverName resp }
    | .fails _ => started
    | .hangs => started

/-- Wall-clock milliseconds `_initialize_single_mcp_client` blocks its
caller: zero when it returns early for a missing command, otherwise the
join wait against the per-server budget (agent.py lines 183-188). -/
def initSingleElapsedMs (serverName : String) (cfg : ServerConfig) (out : WorkerOutcome) : Nat :=
  if cfg.command.isEmpty then 0 else joinTimeMs (initTimeoutMs serverName) out

/-- The `enabled_servers` dict comprehension of agent.py lines 94-95:
entries whose `disabled` flag is truthy are dropped. -/
def enabledServers (servers : List (String × ServerConfig)) : List (String × ServerConfig) :=
  servers.filter (fun nc => !nc.2.disabled)

/-- Eventual manager state produced by `initialize_aws_mcp_clients`
(agent.py lines 87-114): a sequential `for` loop over the enabled servers,
each iteration running `_initialize_single_mcp_client` (whose worker's
writes eventually land as modelled above).  The `try/except` around each
iteration (lines 107-114) only swallows exceptions, it adds no state. -/
def initialize_aws_mcp_clients (servers : List (String × ServerConfig))
    (outcome : String → WorkerOutcome) (st : ManagerState) : ManagerState :=
  (enabledServers servers).foldl
    (fun acc nc => initialize_single_mcp_client nc.1 nc.2 (outcome nc.1) acc) st

/-- Total wall-clock milliseconds the `for` loop of
`initialize_aws_mcp_clients` blocks: the loop body is synchronous, so the
per-server join waits add up in sequence. -/
def fleetInitElapsedMs (servers : List (String × ServerConfig))
    (outcome : String → WorkerOutcome) : Nat :=
  ((enabledServers servers).map (fun nc => initSingleElapsedMs nc.1 nc.2 (outcome nc.1))).sum

/-- The largest per-server join budget among the enabled servers (the
bound the spec claims for the whole fleet). -/
def fleetMaxTimeoutMs (servers : List (String × ServerConfig)) : Nat :=
  ((enabledServers servers).map (fun nc => initTimeoutMs nc.1)).foldr max 0

/-- The sum of the per-server join budgets of the enabled servers (the
bound the sequential loop actually satisfies). -/
def fleetTimeoutSumMs (servers : List (String × ServerConfig)) : Nat :=
  ((enabledServers servers).map (fun nc => initTimeoutMs nc.1)).sum

/-- The tools a server's worker eventually appends to `mcp_tools`:
the tagged tool list when the worker reaches line 167, nothing when it
raises or hangs. -/
def workerTools (serverName : String) : WorkerOutcome → List TaggedTool
  | .succeeds _ resp => get_tools_from_client serverName resp
  | .fails _ => []
  | .hangs => []

/-- Contribution of one configured server to the eventual `mcp_tools`
list: nothing when the command is missing, otherwise whatever its worker
eventually appends. -/
def specContribution (outcome : String → WorkerOutcome) (nc : String × ServerConfig) :
    List TaggedTool :=
  if nc.2.command.isEmpty then [] else workerTools nc.1 (outcome nc.1)

/-- Shallow embedding of `AWSMCPManager.get_all_aws_tools` (agent.py lines
236-238): it returns the shared `self.mcp_tools` list object as it stands
at the moment of the call. -/
def get_all_aws_tools (st : ManagerState) : List TaggedTool :=
  st.mcp_tools

/-- Shallow embedding of `AWSMCPManager.cleanup` (agent.py lines 240-311):
a second entry returns at once under the `_cleanup_registered` guard
(lines 242-243); a first entry sets the guard, stops every client and
ends with `self.mcp_clients.clear(); self.mcp_tools.clear()` (lines
308-310). -/
def cleanup (st : ManagerState) : ManagerState :=
  if st.cleanup_registered then st
  else
    { mcp_clients := [], mcp_tools := [], cleanup_registered := true,
      workersStarted := st.workersStarted }

/-! ## Events the manager state can undergo after fleet initialization

Source: agent.py.  Only two code paths ever write `mcp_clients` /
`mcp_tools` after `initialize_aws_mcp_clients` returns: a still-running
abandoned `init_client_worker` reaching its lines 166-167, and
`cleanup`'s clearing (lines 308-310).  No code in agent.py watches child
processes, so a server's process dying is, to the manager state, a
non-event: there is no handler to model. -/

inductive ManagerEvent where
  | lateWorkerFinishes (serverName : String) (resp : ListToolsResult)
  | serverProcessDies (serverName : String)
  | runCleanup
deriving DecidableEq, Repr

/-- One manager-state transition per observable event, read off agent.py:
`lateWorkerFinishes` is an abandoned worker running lines 166-167;
`serverProcessDies` has no handler anywhere in the file, so the state is
untouched; `runCleanup` is `AWSMCPManager.cleanup`. -/
def stepManager (st : ManagerState) : ManagerEvent → ManagerState
  | .lateWorkerFinishes serverName resp =>
      { st with
        mcp_clients := st.mcp_clients ++ [serverName],
        mcp_tools := st.mcp_tools ++ get_tools_from_client serverName resp }
  | .serverProcessDies _ => st
  | .runCleanup => cleanup st

/-! ## The module-level shutdown coordinator

Source: agent.py, `cleanup_all_resources` (lines 761-809): a global
`_cleanup_done` guard, a daemon worker running the actual cleanup, a
`join(timeout=3.0)` and an unconditional `os._exit(0)` when the worker is
still alive after the deadline. -/

/-- The `join(timeout=3.0)` deadline of agent.py line 802, in
milliseconds. -/
def cleanupDeadlineMs : Nat := 3000

/-- How one call to `cleanup_all_resources` ends: the early return under
the `_cleanup_done` guard, a normal return after the worker finished in
time, or the `os._exit(0)` escape hatch. -/
inductive CleanupOutcome where
  | alreadyDone
  | finished
  | forcedExit
deriving DecidableEq, Repr

/-- Process-wide state seen by `cleanup_all_resources`: the global
`_cleanup_done` flag (agent.py line 758) and the manager it cleans. -/
structure HostState where
  cleanupDone : Bool
  mgr : ManagerState
deriving DecidableEq, Repr

/-- Whether the cleanup worker is still alive when the 3-second join
returns (`cleanup_thread.is_alive()`, agent.py line 804): `none` models a
worker that never returns. -/
def workerPastDeadline : Option Nat → Bool
  | some d => decide (cleanupDeadlineMs < d)
  | none => true

/-- Shallow embedding of `cleanup_all_resources` (agent.py lines 761-809).
`workerDurationMs` is how long the `cleanup_with_timeout` worker body
would take (`none` = forever).  Returns the host state afterwards, how the
call ended, and the wall-clock milliseconds the caller was blocked.  On
`forcedExit` the process is gone (`os._exit(0)`), so the returned state is
the state at the instant of the exit. -/
def cleanup_all_resources (workerDurationMs : Option Nat) (h : HostState) :
    HostState × CleanupOutcome × Nat :=
  if h.cleanupDone then (h, .alreadyDone, 0)
  else
    match workerDurationMs with
    | some d =>
        if d ≤ cleanupDeadlineMs then
          ({ cleanupDone := true, mgr := cleanup h.mgr }, .finished, d)
        else
          ({ cleanupDone := true, mgr := h.mgr }, .forcedExit, cleanupDeadlineMs)
    | none => ({ cleanupDone := true, mgr := h.mgr }, .forcedExit, cleanupDeadlineMs)

/-! ## The Lambda stdio wrapper

Source: `awslabs-mcp-lambda/lambda/mcp_wrapper.py`, class
`McpServerWrapper`.  Process identities are modelled as the naturals
handed out by a counter, so a respawned process is visibly distinct from
the one that died. -/

/-- The mutable fields of a `McpServerWrapper` relevant to process
lifecycle: `self.process` (a pid or `None`), a fresh-pid counter, and a
ghost log of every pid `terminate()` was called on. -/
structure WrapperState where
  process : Option Nat
  nextPid : Nat
  terminatedPids : List Nat
deriving DecidableEq, Repr

/-- The state `McpServerWrapper.__init__` builds (mcp_wrapper.py line 37:
`self.process = None`). -/
def initialWrapperState : WrapperState :=
  { process := none, nextPid := 0, terminatedPids := [] }

/-- What `process.stdout.readline()` yields for a given pid: an empty read
(stream closed), a line that fails `json.loads`, or a decoded response
(kept opaque as a string). -/
inductive ReadOutcome where
  | closed
  | garbage (raw : String)
  | value (v : String)
deriving DecidableEq, Repr

/-- The environment's view of child processes: `alive p` is
`process.poll() is None` for pid `p`, and `read p` is what one
`readline()` on `p`'s stdout yields. -/
structure ChildBehavior where
  alive : Nat → Bool
  read : Nat → ReadOutcome

/-- Shallow embedding of `McpServerWrapper._ensure_server_running`
(mcp_wrapper.py lines 41-67): when `self.process` is `None` or the
process has exited (`poll() is not None`), a fresh process is spawned and
stored; otherwise the existing one is returned. -/
def ensure_server_running (w : ChildBehavior) (st : WrapperState) : Nat × WrapperState :=
  match st.process with
  | some p =>
      if w.alive p then (p, st)
      else (st.nextPid, { st with process := some st.nextPid, nextPid := st.nextPid + 1 })
  | none => (st.nextPid, { st with process := some st.nextPid, nextPid := st.nextPid + 1 })

/-- Shallow embedding of `McpServerWrapper._send_request`
(mcp_wrapper.py lines 69-105): write a line, read exactly one response
line; an empty read raises `RuntimeError("No response from MCP server")`
and a malformed line raises from `json.loads` — either way the `except`
block (lines 99-105) terminates the process, sets `self.process = None`
and re-raises. -/
def send_request (w : ChildBehavior) (st : WrapperState) :
    Except String String × WrapperState :=
  let ps := ensure_server_running w st
  match w.read ps.1 with
  | .closed =>
      (.error "No response from MCP server",
        { ps.2 with process := none, terminatedPids := ps.2.terminatedPids ++ [ps.1] })
  | .garbage raw =>
      (.error ("Expecting value: " ++ raw),
        { ps.2 with process := none, terminatedPids := ps.2.terminatedPids ++ [ps.1] })
  | .value v => (.ok v, ps.2)

/-- An incoming request as `handle_request` sees it: `request.get("id")`
and `request.get("method")` may both be absent. -/
structure McpRequest where
  id : Option String
  method : Option String
deriving DecidableEq, Repr

/-- What `McpServerWrapper.handle_request` returns: the wrapped server's
decoded response forwarded as-is, or the JSON-RPC internal-error object
built in its `except` block. -/
inductive RpcResult where
  | forwarded (v : String)
  | internalError (id : Option String) (code : Int) (message : String) (data : String)
deriving DecidableEq, Repr

/-- Shallow embedding of `McpServerWrapper.handle_request`
(mcp_wrapper.py lines 107-135): forward to `_send_request`; any exception
is converted to `{"jsonrpc": "2.0", "id": request.get("id"),
"error": {"code": -32603, "message": "Internal error", "data": str(e)}}`. -/
def handle_request (w : ChildBehavior) (req : McpRequest) (st : WrapperState) :
    RpcResult × WrapperState :=
  match send_request w st with
  | (.ok v, st1) => (.forwarded v, st1)
  | (.error e, st1) => (.internalError req.id (-32603) "Internal error" e, st1)

/-! ## Paginated tool listing

Source: agent.py, `get_full_tools_list` (lines 1705-1740): a loop over
`list_tools_sync(pagination_token=...)`, following continuation tokens,
capped at `max_iterations = 10`. -/

/-- The duck-typed shapes one `list_tools_sync` call can return inside the
pagination loop (agent.py lines 1722-1737): an iterable of tools, an
object with a `tools` attribute and an optional `pagination_token`
attribute, or anything else (taken as a single tool when truthy). -/
inductive ListToolsPage (α : Type) where
  | bare (ts : List α)
  | paged (ts : List α) (token : Option String)
  | single (t : Option α)

/-- Python truthiness of the `pagination_token` attribute (agent.py line
1729): present and not the empty string. -/
def tokenTruthy : Option String → Bool
  | none => false
  | some s => !s.isEmpty

/-- The pagination loop of `get_full_tools_list`, with the remaining
iteration budget explicit (`max_iterations - iteration`, agent.py line
1716) and a count of `list_tools_sync` calls made so far. -/
def getFullToolsListGo {α : Type} (call : Option String → ListToolsPage α) :
    Nat → Option String → List α → Nat → List α × Nat
  | 0, _, acc, calls => (acc, calls)
  | rem + 1, tok, acc, calls =>
      match call tok with
      | .bare ts => (acc ++ ts, calls + 1)
      | .paged ts tk =>
          if tokenTruthy tk then getFullToolsListGo call rem tk (acc ++ ts) (calls + 1)
          else (acc ++ ts, calls + 1)
      | .single (some t) => (acc ++ [t], calls + 1)
      | .single none => (acc, calls + 1)

/-- The `max_iterations = 10` page cap of agent.py line 1713. -/
def maxListIterations : Nat := 10

/-- Shallow embedding of `get_full_tools_list` (agent.py lines 1705-1740)
for a client double that answers every `list_tools_sync` call: the
accumulated tool list together with the number of `list_tools_sync` calls
made. -/
def get_full_tools_list {α : Type} (call : Option String → ListToolsPage α) :
    List α × Nat :=
  getFullToolsListGo call maxListIterations none [] 0

/-! ## Derived characterizations

The next three definitions restate, entry by entry, what one loop
iteration of `initialize_aws_mcp_clients` contributes to each shared
field; the lemmas below prove the fold over the source model equal to
them. -/

/-- The entry one configured server eventually contributes to
`mcp_clients`: its name exactly when it has a command and its worker
eventually succeeds. -/
def clientContribution (outcome : String → WorkerOutcome) (nc : String × ServerConfig) :
    List String :=
  if !nc.2.command.isEmpty && workerSucceeded (outcome nc.1) then [nc.1] else []

/-- The entry one configured server contributes to the ghost
`workersStarted` log: its name exactly when a worker thread is started for
it (agent.py line 187 is reached only past the missing-command early
return). -/
def startedContribution (nc : String × ServerConfig) : List String :=
  if nc.2.command.isEmpty then [] else [nc.1]

/-! ## Concrete instances used by the theorems below -/

/-- A minimal valid server entry: enabled, with a command. -/
def sampleConfig : ServerConfig :=
  { command := "cmd", args := [], env := [], disabled := false }

/-- Two enabled default-budget servers, used against the fleet-wide
max-timeout bound. -/
def twoHangingServers : List (String × ServerConfig) :=
  [("alpha-mcp-server", sampleConfig), ("beta-mcp-server", sampleConfig)]

/-- A fleet of `n` distinct enabled default-budget servers. -/
def mkFleet (n : Nat) : List (String × ServerConfig) :=
  (List.range n).map (fun k => ("server-" ++ toString k, sampleConfig))

/-- One enabled server whose worker needs 6 seconds, past the 5-second
default budget. -/
def lateServers : List (String × ServerConfig) :=
  [("late-server", sampleConfig)]

/-- The outcome oracle for `lateServers`: the worker finishes successfully
after 6000 ms, carrying one tool. -/
def lateOutcome : String → WorkerOutcome :=
  fun _ =>
    WorkerOutcome.succeeds 6000
      (ListToolsResult.list [{ name := some "late_tool", desc := "tool of the late worker" }])

/-- A child-process environment in which every read hits a closed stream. -/
def allClosedChild : ChildBehavior :=
  { alive := fun _ => true, read := fun _ => ReadOutcome.closed }

/-- A tool-listing double returning two pages linked by one continuation
token. -/
def twoPageDouble : Option String → ListToolsPage Nat :=
  fun tok =>
    match tok with
    | none => ListToolsPage.paged [1, 2] (some "next")
    | some _ => ListToolsPage.paged [3] none

/-- A two-entry configuration with one enabled and one disabled server. -/
def mixedServers : List (String × ServerConfig) :=
  [("enabled-server", sampleConfig),
   ("disabled-server", { command := "cmd", args := [], env := [], disabled := true })]

/-- An outcome oracle under which every started worker succeeds with one
tool. -/
def allSucceedOutcome : String → WorkerOutcome :=
  fun _ => WorkerOutcome.succeeds 100 (ListToolsResult.list [{ name := some "tool_a", desc := "" }])

/-! ## Timing lemmas -/

lemma initTimeoutMs_ge (serverName : String) : 2000 ≤ initTimeoutMs serverName := by
  unfold initTimeoutMs
  split <;> omega

lemma initTimeoutMs_le (serverName : String) : initTimeoutMs serverName ≤ 5000 := by
  unfold initTimeoutMs
  split <;> omega

lemma initSingleElapsedMs_le (serverName : String) (cfg : ServerConfig) (out : WorkerOutcome) :
    initSingleElapsedMs serverName cfg out ≤ initTimeoutMs serverName := by
  unfold initSingleElapsedMs
  split
  · exact Nat.zero_le _
  · cases out <;> simp only [joinTimeMs] <;> omega

lemma foldr_max_le (l : List Nat) (b : Nat) (h : ∀ x ∈ l, x ≤ b) : l.foldr max 0 ≤ b := by
  induction l with
  | nil => exact Nat.zero_le b
  | cons a t ih =>
      simp only [List.foldr_cons]
      have ha := h a (by simp)
      have ht := ih (fun x hx => h x (by simp [hx]))
      omega

lemma fleetMaxTimeoutMs_le (servers : List (String × ServerConfig)) :
    fleetMaxTimeoutMs servers ≤ 5000 := by
  unfold fleetMaxTimeoutMs
  apply foldr_max_le
  intro x hx
  rcases List.mem_map.mp hx with ⟨nc, _, rfl⟩
  exact initTimeoutMs_le nc.1

lemma fleetInitElapsedMs_le_sum (servers : List (String × ServerConfig))
    (outcome : String → WorkerOutcome) :
    fleetInitElapsedMs servers outcome ≤ fleetTimeoutSumMs servers := by
  unfold fleetInitElapsedMs fleetTimeoutSumMs
  apply List.sum_le_sum
  intro nc _
  exact initSingleElapsedMs_le nc.1 nc.2 (outcome nc.1)

lemma fleet_elapsed_lower (l : List (String × ServerConfig))
    (h : ∀ nc ∈ l, nc.2.disabled = false ∧ nc.2.command.isEmpty = false) :
    2000 * l.length ≤ fleetInitElapsedMs l (fun _ => WorkerOutcome.hangs) := by
  induction l with
  | nil => simp [fleetInitElapsedMs, enabledServers]
  | cons a t ih =>
      have ha := h a (by simp)
      have ht := ih (fun nc hnc => h nc (by simp [hnc]))
      have hfil : enabledServers (a :: t) = a :: enabledServers t := by
        unfold enabledServers
        rw [List.filter_cons]
        simp [ha.1]
      unfold fleetInitElapsedMs at ht ⊢
      rw [hfil]
      simp only [List.map_cons, List.sum_cons, List.length_cons]
      have he : initSingleElapsedMs a.1 a.2 WorkerOutcome.hangs = initTimeoutMs a.1 := by
        simp [initSingleElapsedMs, ha.2, joinTimeMs]
      have hge := initTimeoutMs_ge a.1
      have ht2 : 2000 * t.length
          ≤ (List.map (fun nc => initSingleElapsedMs nc.1 nc.2 WorkerOutcome.hangs)
              (enabledServers t)).sum := ht
      rw [he]
      omega

lemma mkFleet_all_enabled (n : Nat) :
    ∀ nc ∈ mkFleet n, nc.2.disabled = false ∧ nc.2.command.isEmpty = false := by
  intro nc hnc
  rcases List.mem_map.mp hnc with ⟨k, _, rfl⟩
  exact ⟨rfl, rfl⟩

lemma mkFleet_length (n : Nat) : (mkFleet n).length = n := by
  simp [mkFleet]

/-- Claim C1 (counterexample): with two enabled default-budget servers
whose workers both hang, `initialize_aws_mcp_clients` blocks 10 s although
the maximum per-server budget is 5 s; and no fixed overhead whatsoever
makes the claimed `max(per-server timeout) + overhead` bound true, because
the sequential loop's waiting time grows linearly with the number of
hanging servers. -/
theorem C1_counterexample :
    (fleetMaxTimeoutMs twoHangingServers = 5000
      ∧ fleetInitElapsedMs twoHangingServers (fun _ => WorkerOutcome.hangs) = 10000)
    ∧ ¬ ∃ overheadMs : Nat, ∀ servers : List (String × ServerConfig),
        fleetInitElapsedMs servers (fun _ => WorkerOutcome.hangs)
          ≤ fleetMaxTimeoutMs servers + overheadMs := by
  constructor
  · exact ⟨by decide, by decide⟩
  · rintro ⟨overheadMs, hC⟩
    have h1 := fleet_elapsed_lower (mkFleet (overheadMs + 3)) (mkFleet_all_enabled _)
    rw [mkFleet_length] at h1
    have h2 := fleetMaxTimeoutMs_le (mkFleet (overheadMs + 3))
    have h3 := hC (mkFleet (overheadMs + 3))
    omega

/-- Claim C1 (amended): the loop of `initialize_aws_mcp_clients` is
sequential, so each server's worker is joined within its own per-server
budget (2 s known-slow, 5 s default), but the budgets accumulate: fleet
initialization is bounded by the SUM of the enabled servers' timeouts,
not by their maximum plus a fixed overhead. -/
theorem C1_elapsed_bounded_by_timeout_sum :
    ∀ (servers : List (String × ServerConfig)) (outcome : String → WorkerOutcome),
      fleetInitElapsedMs servers outcome ≤ fleetTimeoutSumMs servers
      ∧ ∀ (serverName : String) (cfg : ServerConfig),
          initSingleElapsedMs serverName cfg (outcome serverName) ≤ initTimeoutMs serverName := by
  intro servers outcome
  exact ⟨fleetInitElapsedMs_le_sum servers outcome,
    fun serverName cfg => initSingleElapsedMs_le serverName cfg (outcome serverName)⟩

/-! ## Fold equations for fleet initialization -/

lemma single_init_fields (serverName : String) (cfg : ServerConfig) (out : WorkerOutcome)
    (st : ManagerState) :
    (initialize_single_mcp_client serverName cfg out st).mcp_clients
        = st.mcp_clients ++ (if !cfg.command.isEmpty && workerSucceeded out then [serverName] else [])
    ∧ (initialize_single_mcp_client serverName cfg out st).mcp_tools
        = st.mcp_tools ++ (if cfg.command.isEmpty then [] else workerTools serverName out)
    ∧ (initialize_single_mcp_client serverName cfg out st).workersStarted
        = st.workersStarted ++ (if cfg.command.isEmpty then [] else [serverName])
    ∧ (initialize_single_mcp_client serverName cfg out st).cleanup_registered
        = st.cleanup_registered := by
  unfold initialize_single_mcp_client
  cases h : cfg.command.isEmpty <;> cases out <;>
    simp [workerSucceeded, workerTools]

lemma foldl_init_fields (outcome : String → WorkerOutcome) :
    ∀ (l : List (String × ServerConfig)) (st : ManagerState),
      (l.foldl (fun acc nc => initialize_single_mcp_client nc.1 nc.2 (outcome nc.1) acc)
          st).mcp_clients
        = st.mcp_clients ++ l.flatMap (clientContribution outcome)
      ∧ (l.foldl (fun acc nc => initialize_single_mcp_client nc.1 nc.2 (outcome nc.1) acc)
          st).mcp_tools
        = st.mcp_tools ++ l.flatMap (specContribution outcome)
      ∧ (l.foldl (fun acc nc => initialize_single_mcp_client nc.1 nc.2 (outcome nc.1) acc)
          st).workersStarted
        = st.workersStarted ++ l.flatMap startedContribution
      ∧ (l.foldl (fun acc nc => initialize_single_mcp_client nc.1 nc.2 (outcome nc.1) acc)
          st).cleanup_registered
        = st.cleanup_registered := by
  intro l
  induction l with
  | nil => intro st; simp
  | cons a t ih =>
      intro st
      simp only [List.foldl_cons, List.flatMap_cons]
      have hstep := single_init_fields a.1 a.2 (outcome a.1) st
      have hrest := ih (initialize_single_mcp_client a.1 a.2 (outcome a.1) st)
      refine ⟨?_, ?_, ?_, ?_⟩
      · rw [hrest.1, hstep.1, List.append_assoc]
        simp [clientContribution]
      · rw [hrest.2.1, hstep.2.1, List.append_assoc]
        simp [specContribution]
      · rw [hrest.2.2.1, hstep.2.2.1, List.append_assoc]
        simp [startedContribution]
      · rw [hrest.2.2.2, hstep.2.2.2]

lemma init_fields_eq (servers : List (String × ServerConfig)) (outcome : String → WorkerOutcome) :
    (initialize_aws_mcp_clients servers outcome initialManagerState).mcp_clients
        = (enabledServers servers).flatMap (clientContribution outcome)
    ∧ (initialize_aws_mcp_clients servers outcome initialManagerState).mcp_tools
        = (enabledServers servers).flatMap (specContribution outcome)
    ∧ (initialize_aws_mcp_clients servers outcome initialManagerState).workersStarted
        = (enabledServers servers).flatMap startedContribution := by
  have h := foldl_init_fields outcome (enabledServers servers) initialManagerState
  unfold initialize_aws_mcp_clients
  refine ⟨?_, ?_, ?_⟩
  · rw [h.1]; rfl
  · rw [h.2.1]; rfl
  · rw [h.2.2.1]; rfl

/-- Claim C2 (counterexample): one enabled server whose worker succeeds
only after 6000 ms — past its 5000 ms budget, so the caller abandoned it —
still ends up in `mcp_clients` with its tools in `mcp_tools`: the
abandoned worker's result is recorded, not discarded. -/
theorem C2_counterexample :
    "late-server" ∈ (initialize_aws_mcp_clients lateServers lateOutcome
        initialManagerState).mcp_clients
    ∧ (initialize_aws_mcp_clients lateServers lateOutcome initialManagerState).mcp_tools
        = [{ name := some "late_tool", desc := "tool of the late worker",
             originalName := some "late_tool", serverName := some "late-server" }]
    ∧ completedWithinBudget "late-server" (lateOutcome "late-server") = false := by
  refine ⟨by decide, by decide, by decide⟩

/-- Claim C2 (amended): the worker itself writes `mcp_clients` /
`mcp_tools` (agent.py lines 166-167), so membership does not depend on
the per-server budget: the eventual client mapping holds exactly the
enabled, commanded servers whose worker eventually succeeds — a worker
abandoned on timeout that later finishes is still recorded; only servers
whose worker hangs forever or raises are absent, and `mcp_tools` is the
concatenation of the eventual per-server contributions. -/
theorem C2_membership_ignores_budget :
    ∀ (servers : List (String × ServerConfig)) (outcome : String → WorkerOutcome),
      (∀ s, s ∈ (initialize_aws_mcp_clients servers outcome initialManagerState).mcp_clients ↔
          (∃ cfg, (s, cfg) ∈ servers ∧ cfg.disabled = false ∧ cfg.command.isEmpty = false)
            ∧ workerSucceeded (outcome s) = true)
      ∧ (initialize_aws_mcp_clients servers outcome initialManagerState).mcp_tools
          = (enabledServers servers).flatMap (specContribution outcome) := by
  intro servers outcome
  have hf := init_fields_eq servers outcome
  refine ⟨?_, hf.2.1⟩
  intro s
  rw [hf.1, List.mem_flatMap]
  constructor
  · rintro ⟨nc, hmem, hs⟩
    unfold clientContribution at hs
    by_cases hb : (!nc.2.command.isEmpty && workerSucceeded (outcome nc.1)) = true
    · rw [if_pos hb] at hs
      rw [Bool.and_eq_true] at hb
      obtain ⟨hcmd, hsucc⟩ := hb
      have hs1 : s = nc.1 := by simpa using hs
      subst hs1
      rcases List.mem_filter.mp hmem with ⟨hin, hd⟩
      refine ⟨⟨nc.2, ?_, ?_, ?_⟩, hsucc⟩
      · simpa using hin
      · simpa using hd
      · simpa using hcmd
    · rw [if_neg hb] at hs
      simp at hs
  · rintro ⟨⟨cfg, hin, hdis, hcmd⟩, hsucc⟩
    refine ⟨(s, cfg), List.mem_filter.mpr ⟨hin, by simp [hdis]⟩, ?_⟩
    unfold clientContribution
    simp [hcmd, hsucc]

/-! ## Key uniqueness and origin of tool tags -/

lemma key_unique {l : List (String × ServerConfig)} (hnd : (l.map Prod.fst).Nodup)
    {k : String} {a b : ServerConfig} (ha : (k, a) ∈ l) (hb : (k, b) ∈ l) : a = b := by
  induction l with
  | nil => cases ha
  | cons x t ih =>
      rw [List.map_cons, List.nodup_cons] at hnd
      rcases List.mem_cons.mp ha with hax | hat <;> rcases List.mem_cons.mp hb with hbx | hbt
      · rw [← hax] at hbx
        exact (Prod.mk.injEq _ _ _ _).mp hbx.symm |>.2
      · exfalso
        apply hnd.1
        rw [← hax]
        exact List.mem_map.mpr ⟨(k, b), hbt, rfl⟩
      · exfalso
        apply hnd.1
        rw [← hbx]
        exact List.mem_map.mpr ⟨(k, a), hat, rfl⟩
      · exact ih hnd.2 hat hbt

lemma tagTool_serverName (serverName : String) (t : RawTool) :
    (tagTool serverName t).serverName = some serverName
      ∨ (tagTool serverName t).serverName = none := by
  unfold tagTool
  cases t.name <;> simp

lemma get_tools_serverName (serverName : String) (resp : ListToolsResult) :
    ∀ tl ∈ get_tools_from_client serverName resp,
      tl.serverName = some serverName ∨ tl.serverName = none := by
  intro tl htl
  cases resp with
  | dict toolsField =>
      cases toolsField with
      | none => simp [get_tools_from_client] at htl
      | some ts =>
          simp only [get_tools_from_client] at htl
          split at htl
          · simp at htl
          · rcases List.mem_map.mp htl with ⟨t, _, rfl⟩
            exact tagTool_serverName serverName t
  | list ts =>
      simp only [get_tools_from_client] at htl
      split at htl
      · simp at htl
      · rcases List.mem_map.mp htl with ⟨t, _, rfl⟩
        exact tagTool_serverName serverName t
  | isNone => simp [get_tools_from_client] at htl
  | unexpected => simp [get_tools_from_client] at htl
  | raises msg => simp [get_tools_from_client] at htl

lemma workerTools_serverName (serverName : String) (out : WorkerOutcome) :
    ∀ tl ∈ workerTools serverName out,
      tl.serverName = some serverName ∨ tl.serverName = none := by
  intro tl htl
  cases out with
  | succeeds d resp => exact get_tools_serverName serverName resp tl htl
  | fails d => simp [workerTools] at htl
  | hangs => simp [workerTools] at htl

/-- Claim C10: a server whose configuration entry is disabled never gets a
worker thread (hence never an `MCPClient` or a child process), never
appears in `mcp_clients`, and no tool in the aggregated `mcp_tools` list
is tagged with its id. -/
theorem C10_disabled_server_excluded :
    ∀ (servers : List (String × ServerConfig)) (outcome : String → WorkerOutcome)
      (d : String) (cfg : ServerConfig),
      (servers.map Prod.fst).Nodup → (d, cfg) ∈ servers → cfg.disabled = true →
      d ∉ (initialize_aws_mcp_clients servers outcome initialManagerState).workersStarted
      ∧ d ∉ (initialize_aws_mcp_clients servers outcome initialManagerState).mcp_clients
      ∧ ∀ tl ∈ (initialize_aws_mcp_clients servers outcome initialManagerState).mcp_tools,
          tl.serverName ≠ some d := by
  intro servers outcome d cfg hnd hmem hdis
  have hf := init_fields_eq servers outcome
  have hden : ∀ cfg2 : ServerConfig, (d, cfg2) ∈ enabledServers servers → False := by
    intro cfg2 hc
    rcases List.mem_filter.mp hc with ⟨hin, hb⟩
    have heq : cfg2 = cfg := key_unique hnd hin hmem
    rw [heq, hdis] at hb
    simp at hb
  refine ⟨?_, ?_, ?_⟩
  · rw [hf.2.2]
    intro hd
    rcases List.mem_flatMap.mp hd with ⟨nc, hnc, hin⟩
    unfold startedContribution at hin
    split at hin
    · simp at hin
    · have hd1 : d = nc.1 := by simpa using hin
      obtain ⟨n1, n2⟩ := nc
      exact hden n2 (hd1 ▸ hnc)
  · rw [hf.1]
    intro hd
    rcases List.mem_flatMap.mp hd with ⟨nc, hnc, hin⟩
    unfold clientContribution at hin
    split at hin
    · have hd1 : d = nc.1 := by simpa using hin
      obtain ⟨n1, n2⟩ := nc
      exact hden n2 (hd1 ▸ hnc)
    · simp at hin
  · rw [hf.2.1]
    intro tl htl
    rcases List.mem_flatMap.mp htl with ⟨nc, hnc, hin⟩
    unfold specContribution at hin
    split at hin
    · simp at hin
    · rcases workerTools_serverName nc.1 (outcome nc.1) tl hin with hsv | hsv
      · rw [hsv]
        intro hcontra
        have hd1 : d = nc.1 := by simpa using hcontra.symm
        obtain ⟨n1, n2⟩ := nc
        exact hden n2 (hd1 ▸ hnc)
      · rw [hsv]
        simp

/-- Claim C10 (witness): in a two-server configuration where
`disabled-server` is disabled, it is absent from the worker log, the
client table and every tool tag. -/
theorem C10_witness :
    "disabled-server" ∉ (initialize_aws_mcp_clients mixedServers allSucceedOutcome
        initialManagerState).workersStarted
    ∧ "disabled-server" ∉ (initialize_aws_mcp_clients mixedServers allSucceedOutcome
        initialManagerState).mcp_clients
    ∧ ∀ tl ∈ (initialize_aws_mcp_clients mixedServers allSucceedOutcome
        initialManagerState).mcp_tools,
        tl.serverName ≠ some "disabled-server" :=
  C10_disabled_server_excluded mixedServers allSucceedOutcome "disabled-server"
    { command := "cmd", args := [], env := [], disabled := true }
    (by decide) (by decide) rfl

/-- Claim C5: `_get_tools_from_client` never raises — every observed
response shape yields a list: an empty/`None`/unexpected result (and the
exception path) normalizes to `[]`, while a bare list or a dict with a
`tools` field yields that list, tagged. -/
theorem C5_response_shapes_normalize :
    ∀ (serverName : String),
      get_tools_from_client serverName (ListToolsResult.dict none) = []
      ∧ get_tools_from_client serverName ListToolsResult.isNone = []
      ∧ get_tools_from_client serverName ListToolsResult.unexpected = []
      ∧ (∀ msg, get_tools_from_client serverName (ListToolsResult.raises msg) = [])
      ∧ (∀ ts, get_tools_from_client serverName (ListToolsResult.list ts)
            = ts.map (tagTool serverName))
      ∧ (∀ ts, get_tools_from_client serverName (ListToolsResult.dict (some ts))
            = ts.map (tagTool serverName)) := by
  intro serverName
  refine ⟨rfl, rfl, rfl, fun msg => rfl, fun ts => ?_, fun ts => ?_⟩ <;>
    cases ts <;> simp [get_tools_from_client]

/-- Claim C6 (counterexample): after a worker for `srv` has added one tool
and `srv`'s process then dies, `get_all_aws_tools` still returns the tool
tagged with `srv` — a since-failed server's tools are NOT absent from the
next read, because no code path recomputes or prunes `mcp_tools`. -/
theorem C6_counterexample :
    get_all_aws_tools (stepManager
        (stepManager initialManagerState
          (ManagerEvent.lateWorkerFinishes "srv"
            (ListToolsResult.list [{ name := some "srv_tool", desc := "d" }])))
        (ManagerEvent.serverProcessDies "srv"))
      = [{ name := some "srv_tool", desc := "d",
           originalName := some "srv_tool", serverName := some "srv" }]
    ∧ ∃ tl ∈ get_all_aws_tools (stepManager
        (stepManager initialManagerState
          (ManagerEvent.lateWorkerFinishes "srv"
            (ListToolsResult.list [{ name := some "srv_tool", desc := "d" }])))
        (ManagerEvent.serverProcessDies "srv")),
        tl.serverName = some "srv" := by
  refine ⟨by decide, by decide⟩

/-- Claim C6 (amended): `get_all_aws_tools` returns the live shared
`mcp_tools` list — nothing is recomputed: tools appended by a
late-arriving worker are present on the next read, a server process dying
leaves the manager state bit-for-bit unchanged (the source has no handler
for it, so a since-failed server's tools persist), and only `cleanup`
empties the list. -/
theorem C6_reads_live_shared_list :
    (∀ (st : ManagerState) (serverName : String) (resp : ListToolsResult),
        get_all_aws_tools (stepManager st (ManagerEvent.lateWorkerFinishes serverName resp))
          = get_all_aws_tools st ++ get_tools_from_client serverName resp)
    ∧ (∀ (st : ManagerState) (serverName : String),
        stepManager st (ManagerEvent.serverProcessDies serverName) = st)
    ∧ (∀ st : ManagerState,
        get_all_aws_tools (stepManager st ManagerEvent.runCleanup)
          = if st.cleanup_registered then get_all_aws_tools st else []) := by
  refine ⟨fun st serverName resp => rfl, fun st serverName => rfl, fun st => ?_⟩
  simp only [stepManager, cleanup, get_all_aws_tools]
  split <;> rfl

/-- Claim C7: `cleanup_all_resources` never blocks its caller past the
3-second coordinator deadline, and when the cleanup worker is still alive
at the deadline (including one that never returns) the call ends in the
unconditional `os._exit(0)` escape hatch rather than blocking. -/
theorem C7_shutdown_bounded :
    ∀ (workerDurationMs : Option Nat) (h : HostState),
      (cleanup_all_resources workerDurationMs h).2.2 ≤ cleanupDeadlineMs
      ∧ (h.cleanupDone = false → workerPastDeadline workerDurationMs = true →
          (cleanup_all_resources workerDurationMs h).2.1 = CleanupOutcome.forcedExit) := by
  intro workerDurationMs h
  constructor
  · unfold cleanup_all_resources
    split
    · exact Nat.zero_le _
    · cases workerDurationMs with
      | none => exact Nat.le_refl _
      | some v =>
          dsimp only
          split
          · simpa using (by assumption : v ≤ cleanupDeadlineMs)
          · exact Nat.le_refl _
  · intro hdone hpast
    unfold cleanup_all_resources
    rw [hdone]
    cases workerDurationMs with
    | none => rfl
    | some v =>
        unfold workerPastDeadline at hpast
        have hv : cleanupDeadlineMs < v := of_decide_eq_true hpast
        simp only [if_false, Bool.false_eq_true]
        split
        · omega
        · rfl

/-- Claim C7 (witness): against a cleanup worker that never returns and a
not-yet-cleaned host, the call is bounded by the deadline and ends in the
forced exit. -/
theorem C7_witness :
    (cleanup_all_resources none
        { cleanupDone := false, mgr := initialManagerState }).2.2 ≤ cleanupDeadlineMs
    ∧ (cleanup_all_resources none
        { cleanupDone := false, mgr := initialManagerState }).2.1 = CleanupOutcome.forcedExit := by
  have h := C7_shutdown_bounded none { cleanupDone := false, mgr := initialManagerState }
  exact ⟨h.1, h.2 rfl rfl⟩

/-- Claim C8: shutdown is idempotent — `AWSMCPManager.cleanup` applied
twice equals it applied once, a `cleanup_all_resources` call on a host
whose `_cleanup_done` flag is set is a no-op returning immediately (zero
blocked time, state untouched), and every call leaves the flag set. -/
theorem C8_shutdown_idempotent :
    (∀ st : ManagerState, cleanup (cleanup st) = cleanup st)
    ∧ (∀ (workerDurationMs : Option Nat) (h : HostState), h.cleanupDone = true →
        cleanup_all_resources workerDurationMs h = (h, CleanupOutcome.alreadyDone, 0))
    ∧ (∀ (workerDurationMs : Option Nat) (h : HostState),
        ((cleanup_all_resources workerDurationMs h).1).cleanupDone = true) := by
  refine ⟨?_, ?_, ?_⟩
  · intro st
    unfold cleanup
    by_cases hr : st.cleanup_registered
    · simp [hr]
    · simp [hr]
  · intro workerDurationMs h hdone
    unfold cleanup_all_resources
    rw [hdone]
    rfl
  · intro workerDurationMs h
    unfold cleanup_all_resources
    split
    · assumption
    · cases workerDurationMs with
      | none => rfl
      | some v =>
          dsimp only
          split <;> rfl

/-- Claim C8 (witness): on a host already cleaned up, a further
`cleanup_all_resources` call returns `(state unchanged, alreadyDone, 0)`. -/
theorem C8_witness :
    cleanup_all_resources none { cleanupDone := true, mgr := initialManagerState }
      = ({ cleanupDone := true, mgr := initialManagerState }, CleanupOutcome.alreadyDone, 0) :=
  C8_shutdown_idempotent.2.1 none { cleanupDone := true, mgr := initialManagerState } rfl

/-- Claim C9: `handle_request` is total and never raises: for every
request, wrapper state and child behaviour it returns either the child's
decoded response forwarded unchanged, or the JSON-RPC error object with
code -32603, message "Internal error" and the incoming request's own id
(`None` when the request has no id). -/
theorem C9_handle_request_never_raises :
    ∀ (w : ChildBehavior) (req : McpRequest) (st : WrapperState),
      (∃ v st1, handle_request w req st = (RpcResult.forwarded v, st1))
      ∨ (∃ e st1, handle_request w req st
            = (RpcResult.internalError req.id (-32603) "Internal error" e, st1)) := by
  intro w req st
  rcases hsr : send_request w st with ⟨res, st1⟩
  cases res with
  | ok v => exact Or.inl ⟨v, st1, by simp [handle_request, hsr]⟩
  | error e => exact Or.inr ⟨e, st1, by simp [handle_request, hsr]⟩

/-- Claim C3: when reading the response line yields an empty read (the
child's stdout is closed), `_send_request` raises the communication
failure `RuntimeError("No response from MCP server")` instead of
returning a result, terminates and clears the process handle, and the
next request's `_ensure_server_running` spawns a fresh process distinct
from the dead one (lazy respawn). -/
theorem C3_empty_read_kills_then_respawns :
    ∀ (w : ChildBehavior) (st : WrapperState),
      (∀ q, st.process = some q → q < st.nextPid) →
      w.read (ensure_server_running w st).1 = ReadOutcome.closed →
      (send_request w st).1 = Except.error "No response from MCP server"
      ∧ (send_request w st).2.process = none
      ∧ (ensure_server_running w st).1 ∈ (send_request w st).2.terminatedPids
      ∧ (ensure_server_running w (send_request w st).2).2.process
          = some ((send_request w st).2.nextPid)
      ∧ (ensure_server_running w (send_request w st).2).1
          ≠ (ensure_server_running w st).1 := by
  intro w st hwf hread
  rcases hp : st.process with _ | p
  · have hr2 : w.read st.nextPid = ReadOutcome.closed := by
      unfold ensure_server_running at hread
      rw [hp] at hread
      exact hread
    refine ⟨?_, ?_, ?_, ?_, ?_⟩ <;>
      simp [send_request, ensure_server_running, hp, hr2]
  · by_cases halive : w.alive p = true
    · have hr2 : w.read p = ReadOutcome.closed := by
        unfold ensure_server_running at hread
        rw [hp] at hread
        dsimp only at hread
        rw [if_pos halive] at hread
        exact hread
      have hlt : p < st.nextPid := hwf p hp
      refine ⟨?_, ?_, ?_, ?_, ?_⟩ <;>
        simp [send_request, ensure_server_running, hp, halive, hr2] <;> omega
    · have hr2 : w.read st.nextPid = ReadOutcome.closed := by
        unfold ensure_server_running at hread
        rw [hp] at hread
        dsimp only at hread
        rw [if_neg halive] at hread
        exact hread
      refine ⟨?_, ?_, ?_, ?_, ?_⟩ <;>
        simp [send_request, ensure_server_running, hp, halive, hr2]

/-- Claim C3 (witness): starting from a fresh wrapper against a child
whose stdout is closed, the request fails with the communication error,
the handle is cleared, the dead pid is logged as terminated, and the next
call spawns a different pid. -/
theorem C3_witness :
    (send_request allClosedChild initialWrapperState).1
        = Except.error "No response from MCP server"
    ∧ (send_request allClosedChild initialWrapperState).2.process = none
    ∧ (ensure_server_running allClosedChild initialWrapperState).1
        ∈ (send_request allClosedChild initialWrapperState).2.terminatedPids
    ∧ (ensure_server_running allClosedChild
          (send_request allClosedChild initialWrapperState).2).2.process
        = some ((send_request allClosedChild initialWrapperState).2.nextPid)
    ∧ (ensure_server_running allClosedChild
          (send_request allClosedChild initialWrapperState).2).1
        ≠ (ensure_server_running allClosedChild initialWrapperState).1 :=
  C3_empty_read_kills_then_respawns allClosedChild initialWrapperState
    (fun _ hq => Option.noConfusion hq) rfl

/-- Counting `list_tools_sync` calls: the loop makes at most one call per
remaining iteration. -/
lemma getFullToolsListGo_calls_le {α : Type} (call : Option String → ListToolsPage α) :
    ∀ (rem : Nat) (tok : Option String) (acc : List α) (calls : Nat),
      (getFullToolsListGo call rem tok acc calls).2 ≤ calls + rem := by
  intro rem
  induction rem with
  | zero =>
      intro tok acc calls
      simp [getFullToolsListGo]
  | succ k ih =>
      intro tok acc calls
      show (getFullToolsListGo call (k + 1) tok acc calls).2 ≤ calls + (k + 1)
      rw [getFullToolsListGo]
      cases hc : call tok with
      | bare ts =>
          dsimp only
          omega
      | paged ts tk =>
          dsimp only
          split
          · exact le_trans (ih tk (acc ++ ts) (calls + 1)) (by omega)
          · omega
      | single topt =>
          cases topt <;> dsimp only <;> omega

/-- Claim C4: against a double returning two pages linked by one
continuation token, `get_full_tools_list` returns exactly the
concatenation of both pages (so no duplicates when the pages have none);
and against every double — a continuation-token loop included — the
number of `list_tools_sync` calls is bounded by the page cap of 10, so
the listing loop terminates. -/
theorem C4_two_pages_and_page_cap :
    ∀ (α : Type) (call : Option String → ListToolsPage α) (p1 p2 : List α) (t : String),
      (t.isEmpty = false →
        call none = ListToolsPage.paged p1 (some t) →
        call (some t) = ListToolsPage.paged p2 none →
        (get_full_tools_list call).1 = p1 ++ p2
        ∧ ((p1 ++ p2).Nodup → (get_full_tools_list call).1.Nodup))
      ∧ (get_full_tools_list call).2 ≤ maxListIterations := by
  intro α call p1 p2 t
  constructor
  · intro ht h1 h2
    have hres : (get_full_tools_list call).1 = p1 ++ p2 := by
      unfold get_full_tools_list maxListIterations
      show (getFullToolsListGo call (9 + 1) none [] 0).1 = p1 ++ p2
      rw [getFullToolsListGo, h1]
      dsimp only
      rw [if_pos (by simp [tokenTruthy, ht])]
      show (getFullToolsListGo call (8 + 1) (some t) ([] ++ p1) (0 + 1)).1 = p1 ++ p2
      rw [getFullToolsListGo, h2]
      dsimp only
      rw [if_neg (by simp [tokenTruthy])]
      simp
    exact ⟨hres, fun hnd => by rw [hres]; exact hnd⟩
  · have h := getFullToolsListGo_calls_le call maxListIterations none [] 0
    simpa [get_full_tools_list] using h

/-- Claim C4 (witness): on the concrete two-page double, the result is
the concatenation of the pages and the call count is within the cap. -/
theorem C4_witness :
    (get_full_tools_list twoPageDouble).1 = [1, 2] ++ [3]
    ∧ (get_full_tools_list twoPageDouble).2 ≤ maxListIterations := by
  have h := C4_two_pages_and_page_cap Nat twoPageDouble [1, 2] [3] "next"
  exact ⟨(h.1 rfl rfl rfl).1, h.2⟩

end AgentCoreTelco
